import Mathlib

/-!
Verification of `skills/dayuse-pptx/scripts/preprocess-logo.py`.

The script loads an image as an RGBA grid, rewrites the alpha channel of
dark pixels (`remove_black_background`), and saves the result.  We embed
the per-pixel transformation and the CLI entry point shallowly:

* a pixel is the 4-tuple of unsigned channel values `(r, g, b, a)`;
* the vectorized numpy mask writes act independently per pixel, so the
  whole-grid update is the pixel-wise map `remapPixel`;
* the float expression `brightness * 255 / edge_threshold` with
  `brightness = (r+g+b)/3` is modeled exactly in `ℚ` (for the value
  ranges involved, IEEE doubles represent every intermediate result
  closely enough that the truncated result agrees with the exact
  rational: whenever the exact value is an integer the doubles are
  exact, and otherwise the exact value is at least 1/12 away from the
  next integer while the rounding error is below 2⁻⁴⁰);
* `astype(np.uint8)` truncates the nonnegative float toward zero and
  keeps the low 8 bits: `Int.toNat ∘ Int.floor` followed by `% 256`.
-/

/-- An RGBA pixel: four unsigned 8-bit channels (held as `ℕ`; validity
`< 256` is carried as hypotheses where needed). -/
structure Pixel where
  r : ℕ
  g : ℕ
  b : ℕ
  a : ℕ
  deriving DecidableEq, Repr

/-- The channel list of a pixel, in the `[R, G, B, A]` order of the
RGBA grid. -/
def Pixel.toChannels (p : Pixel) : List ℕ := [p.r, p.g, p.b, p.a]

/-- `black_mask = (r < threshold) & (g < threshold) & (b < threshold)`
(line 22 of the script). -/
def blackMask (threshold : ℕ) (p : Pixel) : Bool :=
  decide (p.r < threshold) && decide (p.g < threshold) && decide (p.b < threshold)

/-- `dark_mask = (r < edge_threshold) & (g < edge_threshold) &
(b < edge_threshold) & ~black_mask` (line 26 of the script). -/
def darkMask (threshold edge_threshold : ℕ) (p : Pixel) : Bool :=
  decide (p.r < edge_threshold) && decide (p.g < edge_threshold) &&
    decide (p.b < edge_threshold) && !(blackMask threshold p)

/-- The exact value of the float expression
`brightness * 255 / edge_threshold` where
`brightness = (r + g + b) / 3` (lines 27–28), with `sum = r + g + b`. -/
def rampValue (edge_threshold sum : ℕ) : ℚ :=
  (sum : ℚ) / 3 * 255 / edge_threshold

/-- The alpha value written by the dark-edge branch:
`(brightness * 255 / edge_threshold).astype(np.uint8)` (line 28).
`astype(np.uint8)` truncates the (nonnegative) float toward zero and
reduces to 8 bits. -/
def rampAlpha (edge_threshold sum : ℕ) : ℕ :=
  (Int.toNat ⌊rampValue edge_threshold sum⌋) % 256

/-- The per-pixel effect of `remove_black_background` on the RGBA grid
(lines 22–28): the two mask writes are disjoint and touch only the
alpha channel of the pixels they select. -/
def remapPixel (threshold edge_threshold : ℕ) (p : Pixel) : Pixel :=
  if blackMask threshold p then
    { p with a := 0 }
  else if darkMask threshold edge_threshold p then
    { p with a := rampAlpha edge_threshold (p.r + p.g + p.b) }
  else
    p

/-- The whole-grid transform: the grid is `height` rows of `width`
pixels, and the vectorized mask writes act pixel-wise. -/
def remapGrid (threshold edge_threshold : ℕ) (grid : List (List Pixel)) :
    List (List Pixel) :=
  grid.map (List.map (remapPixel threshold edge_threshold))

/-- The observable effects of one run of the script: lines printed to
standard output, the process exit status, and the files read and
written. -/
structure CliOutcome where
  stdout : List String
  exitCode : ℕ
  filesRead : List String
  filesWritten : List String
  deriving DecidableEq, Repr

/-- The usage line printed when the argument count is wrong (line 36). -/
def usageMessage : String :=
  "Usage: python preprocess-logo.py <input.png> <output.png>"

/-- The `__main__` block (lines 34–38): `argv` is the full `sys.argv`
including the program name.  With any argument count other than 3 the
script prints the usage line and exits with status 1; otherwise
`remove_black_background` reads `argv[1]`, writes `argv[2]`, prints a
confirmation line and the process exits with status 0. -/
def mainRun (argv : List String) : CliOutcome :=
  if argv.length ≠ 3 then
    { stdout := [usageMessage], exitCode := 1, filesRead := [], filesWritten := [] }
  else
    { stdout := ["Saved transparent logo to " ++ argv.getD 2 ""],
      exitCode := 0,
      filesRead := [argv.getD 1 ""],
      filesWritten := [argv.getD 2 ""] }

/-! ### Helper lemmas -/

theorem blackMask_iff (t : ℕ) (p : Pixel) :
    blackMask t p = true ↔ p.r < t ∧ p.g < t ∧ p.b < t := by
  simp [blackMask, and_assoc]

theorem darkMask_iff (t et : ℕ) (p : Pixel) :
    darkMask t et p = true ↔
      (p.r < et ∧ p.g < et ∧ p.b < et) ∧ ¬(p.r < t ∧ p.g < t ∧ p.b < t) := by
  simp [darkMask, blackMask, and_assoc]
  omega

theorem remapPixel_r (t et : ℕ) (p : Pixel) : (remapPixel t et p).r = p.r := by
  unfold remapPixel; split_ifs <;> rfl

theorem remapPixel_g (t et : ℕ) (p : Pixel) : (remapPixel t et p).g = p.g := by
  unfold remapPixel; split_ifs <;> rfl

theorem remapPixel_b (t et : ℕ) (p : Pixel) : (remapPixel t et p).b = p.b := by
  unfold remapPixel; split_ifs <;> rfl

/-- The exact rational ramp value floors to the integer division
`sum * 255 / (3 * et)`, reduced to 8 bits. -/
theorem rampAlpha_nat (et sum : ℕ) :
    rampAlpha et sum = sum * 255 / (3 * et) % 256 := by
  unfold rampAlpha rampValue
  rw [Int.floor_toNat, div_mul_eq_mul_div, div_div]
  have h : (sum : ℚ) * 255 / (3 * et) = ((sum * 255 : ℕ) : ℚ) / ((3 * et : ℕ) : ℚ) := by
    push_cast; ring
  rw [h, Nat.floor_div_nat, Nat.floor_natCast]

theorem blackMask_update (t : ℕ) (p : Pixel) (x : ℕ) :
    blackMask t { p with a := x } = blackMask t p := rfl

theorem darkMask_update (t et : ℕ) (p : Pixel) (x : ℕ) :
    darkMask t et { p with a := x } = darkMask t et p := rfl

/-- The transform is idempotent pixel-wise: the masks read only the
R, G, B channels, which the transform never changes. -/
theorem remapPixel_idem (t et : ℕ) (p : Pixel) :
    remapPixel t et (remapPixel t et p) = remapPixel t et p := by
  by_cases hb : blackMask t p <;> by_cases hd : darkMask t et p <;>
    simp [remapPixel, hb, hd, blackMask_update, darkMask_update]

/-! ### C1 -/

/-- Claim C1: every pixel whose R, G and B channels are each strictly
below `threshold` has output alpha 0 and unchanged R, G, B. -/
theorem black_pixel_fully_transparent (threshold edge_threshold : ℕ) (p : Pixel)
    (h : p.r < threshold ∧ p.g < threshold ∧ p.b < threshold) :
    (remapPixel threshold edge_threshold p).a = 0 ∧
    (remapPixel threshold edge_threshold p).r = p.r ∧
    (remapPixel threshold edge_threshold p).g = p.g ∧
    (remapPixel threshold edge_threshold p).b = p.b := by
  have hb : blackMask threshold p = true := (blackMask_iff threshold p).mpr h
  unfold remapPixel
  rw [if_pos hb]
  exact ⟨rfl, rfl, rfl, rfl⟩

/-- Claim C1 witness: the pixel `(10, 20, 5)` with the default
thresholds. -/
theorem black_pixel_fully_transparent_witness :
    (remapPixel 30 60 ⟨10, 20, 5, 255⟩).a = 0 ∧
    (remapPixel 30 60 ⟨10, 20, 5, 255⟩).r = 10 ∧
    (remapPixel 30 60 ⟨10, 20, 5, 255⟩).g = 20 ∧
    (remapPixel 30 60 ⟨10, 20, 5, 255⟩).b = 5 :=
  black_pixel_fully_transparent 30 60 ⟨10, 20, 5, 255⟩ (by decide)

/-! ### C2 -/

/-- Claim C2 counterexample: at the pixel `(31, 31, 31)` the code writes
alpha `131` (truncation of `131.75`) while `round((31+31+31)/3 × 255/60)`
is `132`: the spec's `round` does not match the code's `astype(np.uint8)`
truncation. -/
theorem dark_ramp_round_counterexample :
    (remapPixel 30 60 ⟨31, 31, 31, 255⟩).a = 131 ∧
    round (((31 + 31 + 31 : ℕ) : ℚ) / 3 * 255 / 60) = 132 := by
  constructor
  · have hb : ¬ blackMask 30 (⟨31, 31, 31, 255⟩ : Pixel) = true := by decide
    have hd : darkMask 30 60 (⟨31, 31, 31, 255⟩ : Pixel) = true := by decide
    unfold remapPixel
    rw [if_neg hb, if_pos hd]
    show rampAlpha 60 (31 + 31 + 31) = 131
    rw [rampAlpha_nat]
  · rw [round_eq]
    norm_num

/-- Claim C2 (amended): for every pixel whose R, G and B channels all lie
in `[30, 60)` (default thresholds), the output alpha is the floor
(truncation toward zero, not rounding to nearest) of
`(R+G+B)/3 × 255/60`, and it lies in `[0, 255]` without any clamping. -/
theorem dark_band_alpha_floor (p : Pixel)
    (h : (30 ≤ p.r ∧ p.r < 60) ∧ (30 ≤ p.g ∧ p.g < 60) ∧ (30 ≤ p.b ∧ p.b < 60)) :
    (remapPixel 30 60 p).a = ⌊((p.r + p.g + p.b : ℕ) : ℚ) / 3 * 255 / 60⌋₊ ∧
    (remapPixel 30 60 p).a ≤ 255 := by
  have hb : ¬ blackMask 30 p = true := by
    rw [blackMask_iff]; omega
  have hd : darkMask 30 60 p = true := by
    rw [darkMask_iff]; omega
  have ha : (remapPixel 30 60 p).a = rampAlpha 60 (p.r + p.g + p.b) := by
    unfold remapPixel
    rw [if_neg hb, if_pos hd]
  have hfloor : ⌊((p.r + p.g + p.b : ℕ) : ℚ) / 3 * 255 / 60⌋₊
      = (p.r + p.g + p.b) * 255 / (3 * 60) := by
    rw [div_mul_eq_mul_div, div_div]
    have hc : ((p.r + p.g + p.b : ℕ) : ℚ) * 255 / (3 * 60)
        = (((p.r + p.g + p.b) * 255 : ℕ) : ℚ) / ((3 * 60 : ℕ) : ℚ) := by
      push_cast; ring
    rw [hc, Nat.floor_div_nat, Nat.floor_natCast]
  rw [ha, rampAlpha_nat, hfloor]
  omega

/-- Claim C2 (amended) witness: the pixel `(45, 45, 45)`. -/
theorem dark_band_alpha_floor_witness :
    (remapPixel 30 60 ⟨45, 45, 45, 255⟩).a
        = ⌊((45 + 45 + 45 : ℕ) : ℚ) / 3 * 255 / 60⌋₊ ∧
    (remapPixel 30 60 ⟨45, 45, 45, 255⟩).a ≤ 255 :=
  dark_band_alpha_floor ⟨45, 45, 45, 255⟩ (by decide)

/-! ### C3 -/

/-- Claim C3: a pixel with `max(R,G,B) ≥ 60` (the default edge
threshold) keeps its input alpha. -/
theorem bright_pixel_alpha_unchanged (p : Pixel)
    (h : 60 ≤ max (max p.r p.g) p.b) :
    (remapPixel 30 60 p).a = p.a := by
  have h3 : 60 ≤ p.r ∨ 60 ≤ p.g ∨ 60 ≤ p.b := by
    rcases le_max_iff.mp h with h1 | h1
    · rcases le_max_iff.mp h1 with h2 | h2
      · exact Or.inl h2
      · exact Or.inr (Or.inl h2)
    · exact Or.inr (Or.inr h1)
  have hb : ¬ blackMask 30 p = true := by
    rw [blackMask_iff]; omega
  have hd : ¬ darkMask 30 60 p = true := by
    rw [darkMask_iff]; omega
  unfold remapPixel
  rw [if_neg hb, if_neg hd]

/-- Claim C3 witness: the pixel `(10, 10, 200)` with input alpha 77. -/
theorem bright_pixel_alpha_unchanged_witness :
    (remapPixel 30 60 ⟨10, 10, 200, 77⟩).a = 77 :=
  bright_pixel_alpha_unchanged ⟨10, 10, 200, 77⟩ (by decide)

/-! ### C4 -/

/-- Claim C4: the transform rewrites only the alpha channel; on every
pixel of the grid the R, G, B channels of the output equal the input. -/
theorem remap_modifies_only_alpha (t et : ℕ) (grid : List (List Pixel)) :
    (remapGrid t et grid).map (List.map fun p => (p.r, p.g, p.b)) =
      grid.map (List.map fun p => (p.r, p.g, p.b)) := by
  unfold remapGrid
  simp only [List.map_map, Function.comp_def]
  have hfun : (fun p : Pixel =>
      ((remapPixel t et p).r, (remapPixel t et p).g, (remapPixel t et p).b)) =
      fun p : Pixel => (p.r, p.g, p.b) :=
    funext fun p => by rw [remapPixel_r, remapPixel_g, remapPixel_b]
  rw [hfun]

/-! ### C5 -/

/-- Claim C5: the 2×1 image with pixels `(0,0,0)` and `(45,45,45)` and
default thresholds yields output alpha values `[0, 191]`. -/
theorem scenario_2x1_alphas :
    (remapGrid 30 60 [[⟨0, 0, 0, 255⟩, ⟨45, 45, 45, 255⟩]]).map
        (List.map Pixel.a) = [[0, 191]] := by
  have h1 : remapPixel 30 60 ⟨0, 0, 0, 255⟩ = ⟨0, 0, 0, 0⟩ := by
    unfold remapPixel
    rw [if_pos (by decide)]
  have h2 : (remapPixel 30 60 ⟨45, 45, 45, 255⟩).a = 191 := by
    unfold remapPixel
    rw [if_neg (by decide), if_pos (by decide)]
    show rampAlpha 60 (45 + 45 + 45) = 191
    rw [rampAlpha_nat]
  simp [remapGrid, h1, h2]

/-! ### C6 -/

/-- Claim C6: a second run with the same thresholds changes nothing on a
pixel that the first run left fully transparent or whose `max(R,G,B)` is
at or above the edge threshold.  (The transform is in fact idempotent on
every pixel; this specializes `remapPixel_idem`.) -/
theorem remap_idempotent_on_settled (t et : ℕ) (p : Pixel)
    (_h : (remapPixel t et p).a = 0 ∨
      et ≤ max (max (remapPixel t et p).r (remapPixel t et p).g)
        (remapPixel t et p).b) :
    remapPixel t et (remapPixel t et p) = remapPixel t et p :=
  remapPixel_idem t et p

/-- Claim C6 witness: the black pixel `(0,0,0)` made fully transparent
by the first run. -/
theorem remap_idempotent_on_settled_witness :
    (remapPixel 30 60 ⟨0, 0, 0, 255⟩).a = 0 ∧
    remapPixel 30 60 (remapPixel 30 60 ⟨0, 0, 0, 255⟩) =
      remapPixel 30 60 ⟨0, 0, 0, 255⟩ :=
  ⟨by decide, remap_idempotent_on_settled 30 60 ⟨0, 0, 0, 255⟩ (Or.inl (by decide))⟩

/-! ### C7 -/

/-- Claim C7: the output grid has the same height and the same row
widths as the input grid, and every output pixel has exactly the 4
channels R, G, B, A. -/
theorem remap_preserves_shape (t et : ℕ) (grid : List (List Pixel)) :
    (remapGrid t et grid).length = grid.length ∧
    (remapGrid t et grid).map List.length = grid.map List.length ∧
    ∀ row ∈ remapGrid t et grid, ∀ p ∈ row, p.toChannels.length = 4 := by
  refine ⟨by simp [remapGrid], by simp [remapGrid], ?_⟩
  intro row hrow p hp
  rfl

/-- Claim C7 witness: a 1×1 grid. -/
theorem remap_preserves_shape_witness :
    (remapGrid 30 60 [[⟨0, 0, 0, 255⟩]]).length = 1 ∧
    (Pixel.toChannels (remapPixel 30 60 ⟨0, 0, 0, 255⟩)).length = 4 :=
  ⟨(remap_preserves_shape 30 60 [[⟨0, 0, 0, 255⟩]]).1,
   (remap_preserves_shape 30 60 [[⟨0, 0, 0, 255⟩]]).2.2
     [remapPixel 30 60 ⟨0, 0, 0, 255⟩] (by simp [remapGrid])
     (remapPixel 30 60 ⟨0, 0, 0, 255⟩) (by simp)⟩

/-! ### C8 -/

/-- Claim C8: invoked with any number of positional arguments other than
exactly 2, the script prints the usage line to standard output and exits
with status 1, reading and writing no file. -/
theorem wrong_arg_count_prints_usage (prog : String) (args : List String)
    (h : args.length ≠ 2) :
    mainRun (prog :: args) =
      { stdout := [usageMessage], exitCode := 1,
        filesRead := [], filesWritten := [] } := by
  have hc : (prog :: args).length ≠ 3 := by
    simp only [List.length_cons]
    omega
  unfold mainRun
  rw [if_pos hc]

/-- Claim C8 witness: one positional argument. -/
theorem wrong_arg_count_prints_usage_witness :
    mainRun ["preprocess-logo.py", "input.png"] =
      { stdout := [usageMessage], exitCode := 1,
        filesRead := [], filesWritten := [] } :=
  wrong_arg_count_prints_usage "preprocess-logo.py" ["input.png"] (by decide)

/-! ### C9 -/

/-- Claim C9: for every pixel in the dark-edge mask (default thresholds),
the exact value of `brightness × 255 / edge_threshold` lies in
`[0, 255]`, so the cast to an unsigned 8-bit value never wraps: the
`% 256` in the uint8 cast is the identity. -/
theorem dark_ramp_value_in_range (p : Pixel)
    (h : darkMask 30 60 p = true) :
    0 ≤ rampValue 60 (p.r + p.g + p.b) ∧
    rampValue 60 (p.r + p.g + p.b) ≤ 255 ∧
    rampAlpha 60 (p.r + p.g + p.b) =
      Int.toNat ⌊rampValue 60 (p.r + p.g + p.b)⌋ := by
  have hlt := (darkMask_iff 30 60 p).mp h
  have hsum : p.r + p.g + p.b ≤ 177 := by omega
  have hq : ((p.r + p.g + p.b : ℕ) : ℚ) ≤ 177 := by exact_mod_cast hsum
  have h0 : (0 : ℚ) ≤ rampValue 60 (p.r + p.g + p.b) := by
    unfold rampValue
    positivity
  have h255 : rampValue 60 (p.r + p.g + p.b) ≤ 255 := by
    unfold rampValue
    rw [div_mul_eq_mul_div, div_div, div_le_iff₀ (by norm_num)]
    push_cast at hq ⊢
    linarith
  refine ⟨h0, h255, ?_⟩
  have hfl : ⌊rampValue 60 (p.r + p.g + p.b)⌋ < 256 :=
    Int.floor_lt.mpr (lt_of_le_of_lt h255 (by norm_num))
  unfold rampAlpha
  omega

/-- Claim C9 witness: the pixel `(45, 45, 45)`. -/
theorem dark_ramp_value_in_range_witness :
    0 ≤ rampValue 60 (45 + 45 + 45) ∧
    rampValue 60 (45 + 45 + 45) ≤ 255 ∧
    rampAlpha 60 (45 + 45 + 45) = Int.toNat ⌊rampValue 60 (45 + 45 + 45)⌋ :=
  dark_ramp_value_in_range ⟨45, 45, 45, 255⟩ (by decide)

/-! ### C10 -/

/-- Claim C10: every pixel rewritten by the dark-edge branch (default
thresholds) gets alpha at most 250, so a remapped edge pixel never gets
alpha 255. -/
theorem dark_ramp_alpha_bounded (p : Pixel)
    (h : darkMask 30 60 p = true) :
    (remapPixel 30 60 p).a ≤ 250 ∧ (remapPixel 30 60 p).a ≠ 255 := by
  have hlt := (darkMask_iff 30 60 p).mp h
  have hb : ¬ blackMask 30 p = true := by
    rw [blackMask_iff]
    exact hlt.2
  have ha : (remapPixel 30 60 p).a = rampAlpha 60 (p.r + p.g + p.b) := by
    unfold remapPixel
    rw [if_neg hb, if_pos h]
  rw [ha, rampAlpha_nat]
  have h180 : (3 : ℕ) * 60 = 180 := rfl
  rw [h180]
  have hsum : p.r + p.g + p.b ≤ 177 := by omega
  have hmul : (p.r + p.g + p.b) * 255 ≤ 45135 := Nat.mul_le_mul_right 255 hsum
  have hdiv : (p.r + p.g + p.b) * 255 / 180 ≤ 250 := by
    have h45 : (45135 : ℕ) / 180 = 250 := by norm_num
    exact h45 ▸ Nat.div_le_div_right hmul
  generalize hx : (p.r + p.g + p.b) * 255 / 180 = x at hdiv ⊢
  rw [Nat.mod_eq_of_lt (by omega)]
  omega

/-- Claim C10 witness: the pixel `(59, 59, 59)` attains the maximum
remapped alpha 250. -/
theorem dark_ramp_alpha_bounded_witness :
    darkMask 30 60 ⟨59, 59, 59, 255⟩ = true ∧
    ((remapPixel 30 60 ⟨59, 59, 59, 255⟩).a ≤ 250 ∧
      (remapPixel 30 60 ⟨59, 59, 59, 255⟩).a ≠ 255) ∧
    (remapPixel 30 60 ⟨59, 59, 59, 255⟩).a = 250 := by
  refine ⟨by decide, dark_ramp_alpha_bounded ⟨59, 59, 59, 255⟩ (by decide), ?_⟩
  unfold remapPixel
  rw [if_neg (by decide), if_pos (by decide)]
  show rampAlpha 60 (59 + 59 + 59) = 250
  rw [rampAlpha_nat]
